import Mathlib

/-
Verification of the ShEx schema compiler core (shex_ast): the two-pass
schema compiler (schema_json_compiler.rs) and the compiled-schema registry
(compiled/compiled_schema.rs), as a shallow embedding in Lean.

Rust HashMaps are modelled as association lists with lookup/insert/modify
operations that match HashMap's observable behaviour (insert overwrites,
entry().and_modify() modifies in place or does nothing).  Rust panics
(the todo bang macro) are modelled by a dedicated result constructor,
distinct from the typed error channel.  Types that belong to external
crates of the same workspace (rbe, prefixmap, iri_s, srdf) are modelled
from the specification and from how the file under verification uses them;
each such definition carries a doc comment saying so.
-/

set_option autoImplicit false

/-- IriS models iri_s::IriS: an IRI value.  Modelled from the spec:
the iri_s crate is an external collaborator; an IRI is its string. -/
structure IriS where
  str : String
deriving DecidableEq, Repr

/-- IriS.new models iri_s::IriS::new.  Modelled from the spec: lexical
rules for IRIs are explicitly out of the core's scope (section 6), so
parsing is modelled as always succeeding (as new_unchecked does). -/
def IriS.new (s : String) : IriS := ⟨s⟩

/-- XSD_STRING constant from schema_json_compiler.rs (lazy_static). -/
def XSD_STRING : IriS := IriS.new "http://www.w3.org/2001/XMLSchema#string"

/-- RDF_LANG_STRING constant from schema_json_compiler.rs (lazy_static). -/
def RDF_LANG_STRING : IriS :=
  IriS.new "http://www.w3.org/1999/02/22-rdf-syntax-ns#langString"

/-- Lang models srdf::lang::Lang (src/srdf/src/lang.rs): a language tag. -/
structure Lang where
  lang : String
deriving DecidableEq, Repr

/-- Lang.new models Lang::new as used by cnv_lang. -/
def Lang.new (s : String) : Lang := ⟨s⟩

/-- Literal models srdf::literal::Literal.  Modelled from the spec and the
match arms of check_node_datatype: datatyped literals, string literals
with an optional language tag, and further literal forms (boolean and
numeric literals, per the spec's ObjectValue data model) that fall into
the catch-all arm of check_node_datatype. -/
inductive Literal where
  | datatypeLiteral (datatype : IriS) (lexical_form : String)
  | stringLiteral (lexical_form : String) (lang : Option Lang)
  | booleanLiteral (value : Bool)
  | numericLiteral (value : Int)
deriving DecidableEq, Repr

/-- Object models srdf::Object: an RDF term. -/
inductive Object where
  | iri (iri : IriS)
  | blankNode (id : String)
  | literal (lit : Literal)
deriving DecidableEq, Repr

/-- Node models rbe::Node, the candidate value handed to match conditions.
Modelled from the spec: the compiler only uses node.as_object(). -/
structure Node where
  obj : Object
deriving DecidableEq, Repr

/-- Node.as_object models Node::as_object. -/
def Node.as_object (n : Node) : Object := n.obj

/-- ShapeLabelIdx models the dense integer shape handle.  Modelled from
the spec (section 3): a dense integer index with default 0 and a
monotonic incr operation. -/
structure ShapeLabelIdx where
  idx : Nat
deriving DecidableEq, Repr

/-- ShapeLabelIdx.new models ShapeLabelIdx::default(). -/
def ShapeLabelIdx.new : ShapeLabelIdx := ⟨0⟩

/-- ShapeLabelIdx.incr models ShapeLabelIdx::incr (functionally). -/
def ShapeLabelIdx.incr (s : ShapeLabelIdx) : ShapeLabelIdx := ⟨s.idx + 1⟩

/-- ShapeLabel models compiled::shape_label::ShapeLabel.  Modelled from
the spec (section 3): an absolute IRI, a blank-node id, or Start. -/
inductive ShapeLabel where
  | iri (value : IriS)
  | bnode (value : String)
  | start
deriving DecidableEq, Repr

/-- ShapeLabel.from_bnode models ShapeLabel::from_bnode. -/
def ShapeLabel.from_bnode (s : String) : ShapeLabel := .bnode s

/-- RbeError models rbe::RbeError as used here: the MsgError variant
carrying a message (the only variant the compiler constructs). -/
inductive RbeError where
  | msgError (msg : String)
deriving DecidableEq, Repr

/-- Pending models rbe::Pending.  Modelled from the spec (section 3): the
set of (node, shape-index) deferred obligations, here as a list of pairs. -/
structure Pending where
  pairs : List (Node × ShapeLabelIdx)
deriving DecidableEq, Repr

/-- Pending.new models Pending::new(). -/
def Pending.new : Pending := ⟨[]⟩

/-- Pending.empty models Pending::empty(). -/
def Pending.empty : Pending := ⟨[]⟩

/-- Pending.from_pair models Pending::from_pair: the singleton obligation. -/
def Pending.from_pair (n : Node) (idx : ShapeLabelIdx) : Pending := ⟨[(n, idx)]⟩

/-- Pending.merge models taking the union of two obligation sets.
Modelled from the spec (section 4.6): success yields the union of the
obligations of the matched components. -/
def Pending.merge (p q : Pending) : Pending := ⟨p.pairs ++ q.pairs⟩

/-- SingleCond models rbe::SingleCond: an optional display name and an
optional predicate over the candidate node.  Modelled from the spec
(section 3, MatchCond) and the builder calls new/with_name/with_cond. -/
structure SingleCond where
  name : Option String
  cond : Option (Node → Except RbeError Pending)

/-- SingleCond.new models SingleCond::new(). -/
def SingleCond.new : SingleCond := ⟨none, none⟩

/-- SingleCond.with_name models SingleCond::with_name. -/
def SingleCond.with_name (sc : SingleCond) (s : String) : SingleCond :=
  { sc with name := some s }

/-- SingleCond.with_cond models SingleCond::with_cond. -/
def SingleCond.with_cond (sc : SingleCond) (f : Node → Except RbeError Pending) :
    SingleCond :=
  { sc with cond := some f }

/-- SingleCond.matches runs a single condition on a node.  Modelled from
the spec: a condition with no predicate is always true and contributes
no obligations. -/
def SingleCond.matches (sc : SingleCond) (n : Node) : Except RbeError Pending :=
  match sc.cond with
  | none => .ok Pending.new
  | some f => f n

/-- MatchCond models rbe::MatchCond: a single condition or a conjunction.
Modelled from the spec (sections 3 and 4.5): present conditions are ANDed. -/
inductive MatchCond where
  | single (sc : SingleCond)
  | and (conds : List MatchCond)

/-- Cond is the compiler's alias for its match-condition type. -/
abbrev Cond := MatchCond

/-- MatchCond.mkSingle models MatchCond::single. -/
def MatchCond.mkSingle (sc : SingleCond) : MatchCond := .single sc

/-- MatchCond.emptyCond models MatchCond::empty().  Modelled from the
spec (section 4.5): absent conditions contribute nothing (always true). -/
def MatchCond.emptyCond : MatchCond := .single SingleCond.new

mutual
/-- MatchCond.matches evaluates a match condition on a node.  Modelled
from the spec (section 3): a MatchCond produces Ok(Pending) or a typed
failure; conjunctions merge the obligations of their members. -/
def MatchCond.matches : MatchCond → Node → Except RbeError Pending
  | .single sc, n => sc.matches n
  | .and cs, n => MatchCond.matchesList cs n

/-- MatchCond.matchesList evaluates a conjunction of conditions. -/
def MatchCond.matchesList : List MatchCond → Node → Except RbeError Pending
  | [], _ => .ok Pending.new
  | c :: cs, n =>
    match MatchCond.matches c n with
    | .error e => .error e
    | .ok p =>
      match MatchCond.matchesList cs n with
      | .error e => .error e
      | .ok q => .ok (p.merge q)
end

/-- StringOrWildcard models crate::StringOrWildcard (compiled value-set
model).  Modelled from the spec (section 3): stem-ranges have a string
stem or a wildcard. -/
inductive StringOrWildcard where
  | str (s : String)
  | wildcard
deriving DecidableEq, Repr

/-- StringOrLiteralStem models crate::StringOrLiteralStem.  Modelled from
the spec: an exclusion is an exact string or a literal stem. -/
inductive StringOrLiteralStem where
  | str (s : String)
  | literalStem (stem : String)
deriving DecidableEq, Repr

/-- ObjectValue models crate::ObjectValue (compiled): an exact IRI or a
literal with an optional language, as built by cnv_object_value. -/
inductive ObjectValue where
  | iriRef (iri : IriS)
  | objectLiteral (value : String) (language : Option Lang)
deriving DecidableEq, Repr

/-- ValueSetValue models crate::ValueSetValue (compiled), restricted to
the variants the compiler's cnv_value actually constructs. -/
inductive ValueSetValue where
  | iriStem (stem : IriS)
  | literalStem (stem : String)
  | literalStemRange (stem : StringOrWildcard)
      (exclusions : Option (List StringOrLiteralStem))
  | language (language_tag : String)
  | objectValue (ov : ObjectValue)
deriving DecidableEq, Repr

/-- ValueSet models crate::ValueSet: the collection of acceptable values. -/
structure ValueSet where
  values : List ValueSetValue
deriving DecidableEq, Repr

/-- ValueSet.new models ValueSet::new(). -/
def ValueSet.new : ValueSet := ⟨[]⟩

/-- ValueSet.add_value models ValueSet::add_value. -/
def ValueSet.add_value (vs : ValueSet) (v : ValueSetValue) : ValueSet :=
  ⟨vs.values ++ [v]⟩

/-- ValueSetValue.matchValue decides whether one declared value accepts an
object.  Modelled from the spec (sections 3 and 4.5): exact values match
by equality, a stem matches iff it prefixes the value, a stem-range
additionally requires that no exclusion matches, a language matches a
language-tagged literal with that tag.  The ValueSet implementation is
outside the inspected sources. -/
def ValueSetValue.matchValue : ValueSetValue → Object → Bool
  | .iriStem stem, .iri i => stem.str.isPrefixOf i.str
  | .iriStem _, _ => false
  | .literalStem stem, .literal (.stringLiteral lf _) => stem.isPrefixOf lf
  | .literalStem _, _ => false
  | .literalStemRange stem exclusions, .literal (.stringLiteral lf _) =>
    (match stem with
     | .str s => s.isPrefixOf lf
     | .wildcard => true) &&
    !((exclusions.getD []).any (fun ex =>
      match ex with
      | .str s => s == lf
      | .literalStem s => s.isPrefixOf lf))
  | .literalStemRange _ _, _ => false
  | .language tag, .literal (.stringLiteral _ (some l)) => l.lang == tag
  | .language _, _ => false
  | .objectValue (.iriRef iri), .iri i => iri == i
  | .objectValue (.iriRef _), _ => false
  | .objectValue (.objectLiteral v lang), .literal (.stringLiteral lf l) =>
    v == lf && lang == l
  | .objectValue (.objectLiteral _ _), _ => false

/-- ValueSet.check_value models ValueSet::check_value: the object must
satisfy at least one declared value. -/
def ValueSet.check_value (vs : ValueSet) (obj : Object) : Bool :=
  vs.values.any (fun v => v.matchValue obj)

/-- MinVal models rbe::Min.  Modelled from the spec and the use sites
(Min::from on an i32, field .value). -/
structure MinVal where
  value : Int
deriving DecidableEq, Repr

/-- MinVal.fromInt models Min::from. -/
def MinVal.fromInt (n : Int) : MinVal := ⟨n⟩

/-- MaxVal models rbe::Max: a bounded maximum or Unbounded.  Modelled from
the spec (section 3, Cardinality). -/
inductive MaxVal where
  | unbounded
  | intMax (n : Int)
deriving DecidableEq, Repr

/-- MaxVal.fromInt models Max::from. -/
def MaxVal.fromInt (n : Int) : MaxVal := .intMax n

/-- Cardinality models rbe::Cardinality: a (min, max) pair. -/
structure Cardinality where
  min : MinVal
  max : MaxVal
deriving DecidableEq, Repr

/-- Cardinality.fromMinMax models Cardinality::from. -/
def Cardinality.fromMinMax (min : MinVal) (max : MaxVal) : Cardinality := ⟨min, max⟩

/-- Cardinality.is_1_1 models Cardinality::is_1_1.  Modelled from the
spec (section 4.4): the (1,1) cardinality. -/
def Cardinality.is_1_1 (c : Cardinality) : Bool :=
  c.min.value == 1 && c.max == .intMax 1

/-- Cardinality.is_star models Cardinality::is_star: (0, unbounded). -/
def Cardinality.is_star (c : Cardinality) : Bool :=
  c.min.value == 0 && c.max == .unbounded

/-- Cardinality.is_plus models Cardinality::is_plus: (1, unbounded). -/
def Cardinality.is_plus (c : Cardinality) : Bool :=
  c.min.value == 1 && c.max == .unbounded

/-- Component models rbe::Component: the dense component id of one entry
of an RbeTable. -/
structure Component where
  c : Nat
deriving DecidableEq, Repr

/-- PredIri models crate::Pred: the predicate IRI of a component. -/
structure PredIri where
  iri : IriS
deriving DecidableEq, Repr

/-- PredIri.fromIri models Pred::from. -/
def PredIri.fromIri (iri : IriS) : PredIri := ⟨iri⟩

/-- Rbe models rbe::rbe::Rbe: the regular-bag-expression pattern tree.
Modelled from the spec (section 3) and the constructors the compiler
uses (symbol with a cardinality, And, Or, Star, Plus, Repeat). -/
inductive Rbe (A : Type) where
  | symbol (value : A) (card : Cardinality)
  | and (values : List (Rbe A))
  | or (values : List (Rbe A))
  | star (value : Rbe A)
  | plus (value : Rbe A)
  | repeatRbe (value : Rbe A) (card : Cardinality)

/-- Rbe.mkSymbol models Rbe::symbol(c, min, max). -/
def Rbe.mkSymbol {A : Type} (c : A) (min : Int) (max : MaxVal) : Rbe A :=
  .symbol c (Cardinality.fromMinMax (MinVal.fromInt min) max)

/-- Rbe.andIter models Rbe::and over an iterator of children. -/
def Rbe.andIter {A : Type} (cs : List (Rbe A)) : Rbe A := .and cs

/-- Rbe.orIter models Rbe::or over an iterator of children. -/
def Rbe.orIter {A : Type} (cs : List (Rbe A)) : Rbe A := .or cs

/-- RbeTable models rbe::RbeTable for keys PredIri, values Node and refs
ShapeLabelIdx.  Modelled from the spec (section 3): a map between a dense
component id and (predicate, match condition), plus the pattern installed
by with_rbe. -/
structure RbeTable where
  components : List (Component × (PredIri × Cond))
  component_counter : Nat
  rbe : Option (Rbe Component)

/-- RbeTable.new models RbeTable::new(). -/
def RbeTable.new : RbeTable := ⟨[], 0, none⟩

/-- RbeTable.add_component models RbeTable::add_component: registers a
fresh component id for (predicate, condition) and returns it. -/
def RbeTable.add_component (t : RbeTable) (p : PredIri) (cond : Cond) :
    Component × RbeTable :=
  let c : Component := ⟨t.component_counter⟩
  (c, { t with
        components := t.components ++ [(c, (p, cond))]
        component_counter := t.component_counter + 1 })

/-- RbeTable.with_rbe models RbeTable::with_rbe: installs the pattern. -/
def RbeTable.with_rbe (t : RbeTable) (r : Rbe Component) : RbeTable :=
  { t with rbe := some r }

/-- NodeKind models compiled_schema::NodeKind.  Modelled from the spec
(section 4.5): IRI, blank node, literal, or non-literal. -/
inductive NodeKind where
  | iri
  | bnode
  | literal
  | nonLiteral
deriving DecidableEq, Repr

/-- XsFacet models compiled_schema::XsFacet.  Its conversion is
unimplemented in the source (it panics), so no value of this type is ever
produced by the compiler; a tag stands for its unhandled content. -/
structure XsFacet where
  tag : String
deriving DecidableEq, Repr

/-- SemAct models compiled_schema::SemAct.  The compiler always produces
the empty list of semantic actions (cnv_sem_acts is a stub). -/
structure SemAct where
  name : String
deriving DecidableEq, Repr

/-- Ann models the compiled annotation type.  The compiler always
produces the empty list (its conversion is a stub). -/
structure Ann where
  tag : String
deriving DecidableEq, Repr

/-- ShapeExpr models compiled_schema::ShapeExpr: the compiled shape
expression, including the transient Empty placeholder used during
registration. -/
inductive ShapeExpr where
  | empty
  | ref (idx : ShapeLabelIdx)
  | shapeOr (exprs : List ShapeExpr)
  | shapeAnd (exprs : List ShapeExpr)
  | shapeNot (expr : ShapeExpr)
  | shape (closed : Bool) (extra : List IriS) (rbe_table : RbeTable)
      (sem_acts : List SemAct) (anns : List Ann)
  | nodeConstraint (node_kind : Option NodeKind) (datatype : Option IriS)
      (xs_facet : Option (List XsFacet)) (values : Option (List ValueSetValue))
      (cond : Cond)

/-- alLookup is the lookup of an association list, the model of
HashMap::get: the value of the first entry with the given key. -/
def alLookup {κ α : Type} [DecidableEq κ] (k : κ) : List (κ × α) → Option α
  | [] => none
  | (k', v) :: rest => if k' = k then some v else alLookup k rest

/-- alInsert is the model of HashMap::insert: overwrite the entry with
the given key in place, or append a new entry. -/
def alInsert {κ α : Type} [DecidableEq κ] (k : κ) (v : α) :
    List (κ × α) → List (κ × α)
  | [] => [(k, v)]
  | (k', v') :: rest =>
    if k' = k then (k, v) :: rest else (k', v') :: alInsert k v rest

/-- alModify is the model of HashMap::entry(k).and_modify(f): modify the
entry with the given key in place, or do nothing at all. -/
def alModify {κ α : Type} [DecidableEq κ] (k : κ) (f : α → α) :
    List (κ × α) → List (κ × α)
  | [] => []
  | (k', v) :: rest =>
    if k' = k then (k', f v) :: rest else (k', v) :: alModify k f rest

/-- PrefixMapError models prefixmap::PrefixMapError.  Modelled from the
spec: the error of the external prefix-map collaborator, carried opaquely. -/
structure PrefixMapError where
  msg : String
deriving DecidableEq, Repr

/-- PrefixMap models prefixmap::PrefixMap.  Modelled from the spec
(section 6): the only operation this core consumes is
resolve_prefix_local(prefix, local) returning an IRI or an error, so the
collaborator is modelled as that resolution function. -/
structure PrefixMap where
  resolvePrefixLocal : String → String → Except PrefixMapError IriS

/-- PrefixMap.default models PrefixMap::default(): an empty prefix map on
which every resolution fails. -/
def PrefixMap.default : PrefixMap :=
  ⟨fun p l => .error ⟨"prefix map is empty, cannot resolve " ++ p ++ ":" ++ l⟩⟩

/-- IriRef models prefixmap::IriRef as used by find_ref: an already
absolute IRI or a prefixed name. -/
inductive IriRef where
  | iri (iri : IriS)
  | prefixed (pfx : String) (localName : String)
deriving DecidableEq, Repr

/-- ShapeExprLabel models crate::ShapeExprLabel, the reference argument
of find_ref: an IRI reference, a blank node, or Start. -/
inductive ShapeExprLabel where
  | iriRef (value : IriRef)
  | bNode (value : String)
  | start
deriving DecidableEq, Repr

/-- CompiledSchemaError models crate::CompiledSchemaError, restricted to
the variants the inspected sources construct. -/
inductive CompiledSchemaError where
  | todoErr (msg : String)
  | minLessZero (min : Int)
  | maxIncorrect (max : Int)
  | prefixedNotFound (pfx : String) (localName : String) (err : PrefixMapError)
  | labelNotFound (shape_label : ShapeLabel)
  | shapeLabelNotFound (shape_label : ShapeLabel)
  | nodeKindIri (node : Node)
  | nodeKindBNode (node : Node)
  | nodeKindLiteral (node : Node)
  | nodeKindNonLiteral (node : Node)
  | datatypeDontMatch (expected : IriS) (found : IriS) (lexical_form : String)
  | datatypeDontMatchString (expected : IriS) (lexical_form : String)
  | datatypeDontMatchLangString (expected : IriS) (lexical_form : String)
      (lang : Lang)
  | datatypeNoLiteral (expected : IriS) (node : Node)
deriving DecidableEq, Repr

/-- CompiledSchema models compiled_schema::CompiledSchema: the label map,
the shapes table, the index counter, and the owned prefix map.  The two
HashMaps are modelled as association lists. -/
structure CompiledSchema where
  shape_labels_map : List (ShapeLabel × ShapeLabelIdx)
  shapes : List (ShapeLabelIdx × (ShapeLabel × ShapeExpr))
  shape_label_counter : ShapeLabelIdx
  pmap : PrefixMap

/-- CompiledSchema.new models CompiledSchema::new(). -/
def CompiledSchema.new : CompiledSchema :=
  ⟨[], [], ShapeLabelIdx.new, PrefixMap.default⟩

/-- CompiledSchema.set_prefixmap models CompiledSchema::set_prefixmap. -/
def CompiledSchema.set_prefixmap (s : CompiledSchema) (pm : Option PrefixMap) :
    CompiledSchema :=
  { s with pmap := pm.getD PrefixMap.default }

/-- CompiledSchema.add_shape models CompiledSchema::add_shape: bind the
label to the current counter in both maps and increment the counter. -/
def CompiledSchema.add_shape (s : CompiledSchema) (shape_label : ShapeLabel)
    (se : ShapeExpr) : CompiledSchema :=
  let idx := s.shape_label_counter
  { s with
    shape_labels_map := alInsert shape_label idx s.shape_labels_map
    shapes := alInsert idx (shape_label, se) s.shapes
    shape_label_counter := s.shape_label_counter.incr }

/-- CompiledSchema.replace_shape models CompiledSchema::replace_shape:
entry(idx).and_modify replaces the shape expression of an existing entry
(keeping its label) and does nothing when the index is absent. -/
def CompiledSchema.replace_shape (s : CompiledSchema) (idx : ShapeLabelIdx)
    (se : ShapeExpr) : CompiledSchema :=
  { s with shapes := alModify idx (fun p => (p.1, se)) s.shapes }

/-- CompiledSchema.find_shape_label_idx models find_shape_label_idx. -/
def CompiledSchema.find_shape_label_idx (s : CompiledSchema)
    (label : ShapeLabel) : Option ShapeLabelIdx :=
  alLookup label s.shape_labels_map

/-- CompiledSchema.find_label models CompiledSchema::find_label: look the
label up in the label map, then the index up in the shapes table. -/
def CompiledSchema.find_label (s : CompiledSchema) (label : ShapeLabel) :
    Option (ShapeLabelIdx × ShapeExpr) :=
  match s.find_shape_label_idx label with
  | none => none
  | some idx =>
    match alLookup idx s.shapes with
    | none => none
    | some (_label, se) => some (idx, se)

/-- CompiledSchema.find_shape_idx models CompiledSchema::find_shape_idx. -/
def CompiledSchema.find_shape_idx (s : CompiledSchema) (idx : ShapeLabelIdx) :
    Option (ShapeLabel × ShapeExpr) :=
  alLookup idx s.shapes

/-- CompiledSchema.get_shape_label_idx models get_shape_label_idx: the
index of a label, or a typed ShapeLabelNotFound error. -/
def CompiledSchema.get_shape_label_idx (s : CompiledSchema)
    (shape_label : ShapeLabel) : Except CompiledSchemaError ShapeLabelIdx :=
  match alLookup shape_label s.shape_labels_map with
  | some shape_label_idx => .ok shape_label_idx
  | none => .error (.shapeLabelNotFound shape_label)

/-- CompiledSchema.find_ref models CompiledSchema::find_ref.  The source
takes a mutable reference, so the embedding threads the state through
explicitly and returns it next to the result; the body never writes it. -/
def CompiledSchema.find_ref (s : CompiledSchema) (se_ref : ShapeExprLabel) :
    CompiledSchema × Except CompiledSchemaError ShapeLabelIdx :=
  let shape_label? : Except CompiledSchemaError ShapeLabel :=
    match se_ref with
    | .iriRef (.iri iri) => .ok (ShapeLabel.iri iri)
    | .iriRef (.prefixed pfx localName) =>
      match s.pmap.resolvePrefixLocal pfx localName with
      | .error err => .error (.prefixedNotFound pfx localName err)
      | .ok iri => .ok (ShapeLabel.iri iri)
    | .bNode value => .ok (ShapeLabel.from_bnode value)
    | .start => .ok ShapeLabel.start
  match shape_label? with
  | .error e => (s, .error e)
  | .ok shape_label =>
    match alLookup shape_label s.shape_labels_map with
    | some idx => (s, .ok idx)
    | none => (s, .error (.labelNotFound shape_label))

/-- JsonIriRef models schema_json::IriRef: a struct holding the written
IRI string (field value), as accessed by cnv_iri_ref and cnv_predicate. -/
structure JsonIriRef where
  value : String
deriving DecidableEq, Repr

/-- AstNodeKind models schema_json::NodeKind: the four declared kinds. -/
inductive AstNodeKind where
  | iri
  | bnode
  | literal
  | nonLiteral
deriving DecidableEq, Repr

/-- AstXsFacet models schema_json::XsFacet.  Its conversion cnv_xs_facet
is an unimplemented stub in the source, so the content is irrelevant here
and kept as a tag. -/
structure AstXsFacet where
  tag : String
deriving DecidableEq, Repr

/-- AstObjectValue models schema_json::ObjectValue as destructured by
cnv_object_value: an IRI reference, or an object literal of which only
value and language are read (the remaining serde fields are ignored with
a rest pattern in the source and omitted here). -/
inductive AstObjectValue where
  | iriRef (i : JsonIriRef)
  | objectLiteral (value : String) (language : Option String)
deriving DecidableEq, Repr

/-- AstObjectValueWrapper models schema_json::ObjectValueWrapper with its
payload field ov. -/
structure AstObjectValueWrapper where
  ov : AstObjectValue
deriving DecidableEq, Repr

/-- AstStringOrWildcard models schema_json::StringOrWildcard.  Its
conversion cnv_string_or_wildcard is an unimplemented stub (a panic). -/
inductive AstStringOrWildcard where
  | str (s : String)
  | wildcard
deriving DecidableEq, Repr

/-- AstStringOrLiteralStemWrapper models the wrapper passed to the
unimplemented cnv_string_or_literalstem; its content is kept as a tag. -/
structure AstStringOrLiteralStemWrapper where
  tag : String
deriving DecidableEq, Repr

/-- AstValueSetValue models schema_json::ValueSetValue with the variants
the compiler's cnv_value matches on: the five handled variants plus the
three (IriStemRange, LanguageStem, LanguageStemRange) that reach the
catch-all panic.  Fields the source ignores with rest patterns are
omitted. -/
inductive AstValueSetValue where
  | iriStem (stem : JsonIriRef)
  | iriStemRange (stem : JsonIriRef)
  | literalStem (stem : String)
  | literalStemRange (stem : AstStringOrWildcard)
      (exclusions : Option (List AstStringOrLiteralStemWrapper))
  | language (language_tag : String)
  | languageStem (stem : String)
  | languageStemRange (stem : String)
  | objectValue (ovw : AstObjectValueWrapper)
deriving DecidableEq, Repr

/-- AstValueSetValueWrapper models schema_json::ValueSetValueWrapper with
its payload field vs. -/
structure AstValueSetValueWrapper where
  vs : AstValueSetValue
deriving DecidableEq, Repr

/-- AstSemAct models schema_json::SemAct; its content is never read by
the compiler (cnv_sem_acts discards it). -/
structure AstSemAct where
  name : String
deriving DecidableEq, Repr

/-- AstAnn models a schema_json annotation entry; its content is never
read by the compiler. -/
structure AstAnn where
  tag : String
deriving DecidableEq, Repr

/-- AstRef models schema_json::Ref, the reference form in the AST. -/
inductive AstRef where
  | iriRef (value : String)
  | bNode (value : String)
deriving DecidableEq, Repr

mutual
/-- AstShapeExpr models schema_json::ShapeExpr, the parsed shape
expression.  Wrapper structs around child expressions (ShapeExprWrapper,
TripleExprWrapper), which the compiler unwraps immediately via their se
and te fields, are flattened away. -/
inductive AstShapeExpr where
  | ref (r : AstRef)
  | shapeOr (shape_exprs : List AstShapeExpr)
  | shapeAnd (shape_exprs : List AstShapeExpr)
  | shapeNot (shape_expr : AstShapeExpr)
  | shape (closed : Option Bool) (extra : Option (List JsonIriRef))
      (expression : Option AstTripleExpr)
      (sem_acts : Option (List AstSemAct)) (anns : Option (List AstAnn))
  | nodeConstraint (node_kind : Option AstNodeKind)
      (datatype : Option JsonIriRef) (xs_facet : Option (List AstXsFacet))
      (values : Option (List AstValueSetValueWrapper))
  | shapeExternal

/-- AstTripleExpr models schema_json::TripleExpr.  Fields the compiler
ignores with underscore patterns (id, inverse, sem_acts, annotation
lists) are omitted. -/
inductive AstTripleExpr where
  | eachOf (expressions : List AstTripleExpr) (min : Option Int)
      (max : Option Int)
  | oneOf (expressions : List AstTripleExpr) (min : Option Int)
      (max : Option Int)
  | tripleConstraint (predicate : JsonIriRef)
      (value_expr : Option AstShapeExpr) (min : Option Int) (max : Option Int)
  | tripleExprRef (r : String)
end

/-- ShapeDecl models schema_json::ShapeDecl: an id and a shape expression. -/
structure ShapeDecl where
  id : String
  shape_expr : AstShapeExpr

/-- SchemaJson models schema_json::SchemaJson as read by the compiler:
the optional list of shape declarations. -/
structure SchemaJson where
  shapes : Option (List ShapeDecl)

/-- PResult is the result of a compiler step: Ok, a typed compile error
(Rust Result::Err), or a runtime panic (the Rust todo bang macro, which
aborts instead of returning).  Panics are kept distinct from the typed
error channel so that the safety claims can talk about them. -/
inductive PResult (α : Type) where
  | ok (value : α)
  | err (e : CompiledSchemaError)
  | panicked (msg : String)

/-- PResult.bind propagates errors and panics like the Rust try operator
does for errors (a panic aborts everything downstream). -/
def PResult.bind {α β : Type} : PResult α → (α → PResult β) → PResult β
  | .ok a, f => f a
  | .err e, _ => .err e
  | .panicked m, _ => .panicked m

instance : Monad PResult where
  pure := .ok
  bind := PResult.bind

/-- toP lifts a Result-returning call into the compiler's result type
(the try operator on a function that cannot panic). -/
def toP {α : Type} : Except CompiledSchemaError α → PResult α
  | .ok a => .ok a
  | .error e => .err e

/-- todoTyped models the helper fn todo in schema_json_compiler.rs, which
returns the typed Todo error (not a panic). -/
def todoTyped {α : Type} (msg : String) : PResult α := .err (.todoErr msg)

/-- panicMsg is the message of the Rust todo bang macro. -/
def panicMsg : String := "not yet implemented"

/-- ShapeLabel.from_iri_str models ShapeLabel::from_iri_str.  Modelled
from the spec: shape_label.rs is not among the inspected sources; per the
spec (section 3) a declared shape id denotes an IRI label, so the id
string becomes an IRI label (IRI lexical validation is out of scope). -/
def ShapeLabel.from_iri_str (s : String) : Except CompiledSchemaError ShapeLabel :=
  .ok (.iri (IriS.new s))

/-- id_to_shape_label models SchemaJsonCompiler::id_to_shape_label. -/
def id_to_shape_label (id : String) : PResult ShapeLabel :=
  toP (ShapeLabel.from_iri_str id)

/-- get_shape_label_idx_of_id models SchemaJsonCompiler::
get_shape_label_idx (the id-string based one, distinct from the
CompiledSchema method it calls). -/
def get_shape_label_idx_of_id (id : String) (s : CompiledSchema) :
    PResult ShapeLabelIdx := do
  let label ← id_to_shape_label id
  toP (s.get_shape_label_idx label)

/-- ref2idx models SchemaJsonCompiler::ref2idx. -/
def ref2idx (s : CompiledSchema) (sref : AstRef) : PResult ShapeLabelIdx :=
  match sref with
  | .iriRef value => get_shape_label_idx_of_id value s
  | .bNode _ => todoTyped "ref2idx: BNode"

/-- cnv_iri_ref models fn cnv_iri_ref: build an IriS from the written
string (the inner IriS::new parse is modelled as always succeeding). -/
def cnv_iri_ref (iri : JsonIriRef) : PResult IriS :=
  .ok (IriS.new iri.value)

/-- cnv_lang models fn cnv_lang. -/
def cnv_lang (lang : String) : PResult Lang :=
  .ok (Lang.new lang)

/-- cnv_opt models fn cnv_opt: apply a fallible conversion under Option. -/
def cnv_opt {A B : Type} (maybe_vs : Option A) (func : A → PResult B) :
    PResult (Option B) :=
  match maybe_vs with
  | none => .ok none
  | some vs =>
    match func vs with
    | .err err => .err err
    | .panicked m => .panicked m
    | .ok v => .ok (some v)

/-- cnv_opt_vec models fn cnv_opt_vec: apply a fallible conversion to
every element under Option, stopping at the first failure. -/
def cnv_opt_vec {A B : Type} (maybe_vs : Option (List A)) (func : A → PResult B) :
    PResult (Option (List B)) :=
  match maybe_vs with
  | none => .ok none
  | some vs =>
    match go vs with
    | .err err => .err err
    | .panicked m => .panicked m
    | .ok rs => .ok (some rs)
where
  /-- go is the source's accumulating loop over the vector. -/
  go : List A → PResult (List B)
    | [] => .ok []
    | v :: rest =>
      match func v with
      | .err err => .err err
      | .panicked m => .panicked m
      | .ok result =>
        match go rest with
        | .err err => .err err
        | .panicked m => .panicked m
        | .ok rs => .ok (result :: rs)

/-- cnv_node_kind models fn cnv_node_kind: an unimplemented stub that
panics (the Rust todo bang macro), for every input. -/
def cnv_node_kind (_nk : AstNodeKind) : PResult NodeKind :=
  .panicked panicMsg

/-- cnv_xs_facet models fn cnv_xs_facet: an unimplemented stub that
panics for every input. -/
def cnv_xs_facet (_xsf : AstXsFacet) : PResult XsFacet :=
  .panicked panicMsg

/-- cnv_string_or_wildcard models fn cnv_string_or_wildcard: an
unimplemented stub that panics for every input. -/
def cnv_string_or_wildcard (_sw : AstStringOrWildcard) : PResult StringOrWildcard :=
  .panicked panicMsg

/-- cnv_string_or_literalstem models fn cnv_string_or_literalstem: an
unimplemented stub that panics for every input. -/
def cnv_string_or_literalstem (_sl : AstStringOrLiteralStemWrapper) :
    PResult StringOrLiteralStem :=
  .panicked panicMsg

/-- cnv_object_value models fn cnv_object_value. -/
def cnv_object_value (ov : AstObjectValue) : PResult ObjectValue :=
  match ov with
  | .iriRef ir => do
    let iri ← cnv_iri_ref ir
    pure (.iriRef iri)
  | .objectLiteral value language => do
    let language2 ← cnv_opt language cnv_lang
    pure (.objectLiteral value language2)

/-- cnv_value models fn cnv_value: convert one declared value-set value;
the variants outside the five handled ones reach a catch-all panic. -/
def cnv_value (v : AstValueSetValueWrapper) : PResult ValueSetValue :=
  match v.vs with
  | .iriStem stem => do
    let cnv_stem ← cnv_iri_ref stem
    pure (.iriStem cnv_stem)
  | .objectValue ovw => do
    let ov ← cnv_object_value ovw.ov
    pure (.objectValue ov)
  | .language language_tag => .ok (.language language_tag)
  | .literalStem stem => .ok (.literalStem stem)
  | .literalStemRange stem exclusions => do
    let stem2 ← cnv_string_or_wildcard stem
    let exclusions2 ← cnv_opt_vec exclusions cnv_string_or_literalstem
    pure (.literalStemRange stem2 exclusions2)
  | .iriStemRange _ => .panicked panicMsg
  | .languageStem _ => .panicked panicMsg
  | .languageStemRange _ => .panicked panicMsg

/-- create_value_set_go is the accumulating loop of create_value_set. -/
def create_value_set_go (vs : ValueSet) :
    List AstValueSetValueWrapper → PResult ValueSet
  | [] => .ok vs
  | v :: rest => do
    let cvalue ← cnv_value v
    create_value_set_go (vs.add_value cvalue) rest

/-- create_value_set models fn create_value_set. -/
def create_value_set (values : List AstValueSetValueWrapper) : PResult ValueSet :=
  create_value_set_go ValueSet.new values

/-- mk_cond_ref models fn mk_cond_ref: the match condition of a shape
reference; it always succeeds and emits the single pending obligation
(value, idx). -/
def mk_cond_ref (idx : ShapeLabelIdx) : Cond :=
  MatchCond.mkSingle
    ((SingleCond.new.with_name ("@" ++ toString idx.idx)).with_cond
      (fun value => .ok (Pending.from_pair value idx)))

/-- check_node_node_kind models fn check_node_node_kind. -/
def check_node_node_kind (node : Node) (nk : AstNodeKind) :
    Except CompiledSchemaError Unit :=
  match nk, node.as_object with
  | .iri, .iri _ => .ok ()
  | .iri, _ => .error (.nodeKindIri node)
  | .bnode, .blankNode _ => .ok ()
  | .bnode, _ => .error (.nodeKindBNode node)
  | .literal, .literal _ => .ok ()
  | .literal, _ => .error (.nodeKindLiteral node)
  | .nonLiteral, .blankNode _ => .ok ()
  | .nonLiteral, .iri _ => .ok ()
  | .nonLiteral, _ => .error (.nodeKindNonLiteral node)

/-- check_node_datatype models fn check_node_datatype: a datatyped
literal must carry exactly the expected datatype IRI, an untyped string
literal is implicitly xsd:string, a language-tagged literal is implicitly
rdf:langString, and anything else is a typed datatype error. -/
def check_node_datatype (node : Node) (dt : IriS) :
    Except CompiledSchemaError Unit :=
  match node.as_object with
  | .literal (.datatypeLiteral datatype lexical_form) =>
    if dt = datatype then .ok ()
    else .error (.datatypeDontMatch dt datatype lexical_form)
  | .literal (.stringLiteral lexical_form none) =>
    if dt = XSD_STRING then .ok ()
    else .error (.datatypeDontMatchString dt lexical_form)
  | .literal (.stringLiteral lexical_form (some lang)) =>
    if dt = RDF_LANG_STRING then .ok ()
    else .error (.datatypeDontMatchLangString dt lexical_form lang)
  | _ => .error (.datatypeNoLiteral dt node)

/-- mk_cond_datatype models fn mk_cond_datatype: wrap check_node_datatype
as a match condition; failures become an RbeError message (the display
rendering of the inner error, modelled by its Repr string). -/
def mk_cond_datatype (datatype : IriS) : Cond :=
  MatchCond.mkSingle
    ((SingleCond.new.with_name ("datatype" ++ datatype.str)).with_cond
      (fun value =>
        match check_node_datatype value datatype with
        | .ok _ => .ok Pending.new
        | .error err => .error (.msgError ("Datatype error: " ++ reprStr err))))

/-- mk_cond_nodekind models fn mk_cond_nodekind. -/
def mk_cond_nodekind (nodekind : AstNodeKind) : Cond :=
  MatchCond.mkSingle
    ((SingleCond.new.with_name ("nodekind" ++ reprStr nodekind)).with_cond
      (fun value =>
        match check_node_node_kind value nodekind with
        | .ok _ => .ok Pending.empty
        | .error err => .error (.msgError ("NodeKind Error: " ++ reprStr err))))

/-- mk_cond_value_set models fn mk_cond_value_set. -/
def mk_cond_value_set (value_set : ValueSet) : Cond :=
  MatchCond.mkSingle
    ((SingleCond.new.with_name (reprStr value_set)).with_cond
      (fun node =>
        if value_set.check_value node.as_object then .ok Pending.empty
        else .error (.msgError ("Values failed: " ++ reprStr node ++ " not in "
          ++ reprStr value_set))))

/-- node_kind2match_cond models SchemaJsonCompiler::node_kind2match_cond. -/
def node_kind2match_cond (nodekind : AstNodeKind) : Cond :=
  mk_cond_nodekind nodekind

/-- datatype2match_cond models SchemaJsonCompiler::datatype2match_cond. -/
def datatype2match_cond (datatype : JsonIriRef) : PResult Cond := do
  let iri ← cnv_iri_ref datatype
  pure (mk_cond_datatype iri)

/-- xs_facet2match_cond models SchemaJsonCompiler::xs_facet2match_cond:
an unimplemented stub that panics whenever it is called. -/
def xs_facet2match_cond (_xs_facet : List AstXsFacet) : PResult Cond :=
  .panicked panicMsg

/-- valueset2match_cond models SchemaJsonCompiler::valueset2match_cond. -/
def valueset2match_cond (vs : ValueSet) : Cond :=
  mk_cond_value_set vs

/-- invert_option models SchemaJsonCompiler::invert_option. -/
def invert_option {T : Type} (r : Option (PResult T)) : PResult (Option T) :=
  match r with
  | none => .ok none
  | some v =>
    match v with
    | .ok t => .ok (some t)
    | .err e => .err e
    | .panicked m => .panicked m

/-- options2match_cond models SchemaJsonCompiler::options2match_cond:
drop the absent conditions and conjoin the present ones. -/
def options2match_cond (os : List (Option Cond)) : Cond :=
  let vec : List Cond := os.filterMap id
  match vec with
  | [] => MatchCond.emptyCond
  | [c] => c
  | _ => MatchCond.and vec

/-- node_constraint2match_cond models SchemaJsonCompiler::
node_constraint2match_cond: build the four optional atomic conditions and
conjoin them.  The facet branch calls the panicking stub whenever facets
are present, as the source does. -/
def node_constraint2match_cond (node_kind : Option AstNodeKind)
    (datatype : Option JsonIriRef) (xs_facet : Option (List AstXsFacet))
    (values : Option ValueSet) : PResult Cond := do
  let c1 : Option Cond := node_kind.map node_kind2match_cond
  let c2 ← invert_option (datatype.map (fun dt => datatype2match_cond dt))
  let c3 ←
    match xs_facet with
    | none => pure (none : Option Cond)
    | some xsf => do
      let c ← xs_facet2match_cond xsf
      pure (some c)
  let c4 : Option Cond := values.map valueset2match_cond
  pure (options2match_cond [c1, c2, c3, c4])

/-- cnv_node_constraint models SchemaJsonCompiler::cnv_node_constraint. -/
def cnv_node_constraint (nk : Option AstNodeKind) (dt : Option JsonIriRef)
    (xs_facet : Option (List AstXsFacet))
    (values : Option (List AstValueSetValueWrapper)) : PResult Cond := do
  let maybe_value_set ←
    match values with
    | some vs => do
      let value_set ← create_value_set vs
      pure (some value_set)
    | none => pure (none : Option ValueSet)
  node_constraint2match_cond nk dt xs_facet maybe_value_set

/-- value_expr2match_cond models SchemaJsonCompiler::value_expr2match_cond
(including the source's copy-pasted ShapeOr message on the ShapeAnd arm). -/
def value_expr2match_cond (s : CompiledSchema) (ve : Option AstShapeExpr) :
    PResult Cond :=
  match ve with
  | some se =>
    match se with
    | .nodeConstraint node_kind datatype xs_facet values =>
      cnv_node_constraint node_kind datatype xs_facet values
    | .ref sref => do
      let idx ← ref2idx s sref
      pure (mk_cond_ref idx)
    | .shape _ _ _ _ _ => todoTyped "valueexpr2match_cond: Shape"
    | .shapeAnd _ => todoTyped "value_expr2match_cond: ShapeOr"
    | .shapeOr _ => todoTyped "value_expr2match_cond: ShapeOr"
    | .shapeNot _ => todoTyped "value_expr2match_cond: ShapeNot"
    | .shapeExternal => todoTyped "value_expr2match_cond: ShapeExternal"
  | none => .ok (MatchCond.mkSingle (SingleCond.new.with_name "."))

/-- cnv_closed models SchemaJsonCompiler::cnv_closed. -/
def cnv_closed (closed : Option Bool) : Bool :=
  match closed with
  | none => false
  | some closed => closed

/-- cnv_extra_go is the source's accumulating loop of cnv_extra. -/
def cnv_extra_go : List JsonIriRef → PResult (List IriS)
  | [] => .ok []
  | iri :: rest => do
    let nm ← cnv_iri_ref iri
    let vs ← cnv_extra_go rest
    pure (nm :: vs)

/-- cnv_extra models SchemaJsonCompiler::cnv_extra. -/
def cnv_extra (extra : Option (List JsonIriRef)) : PResult (List IriS) :=
  match extra with
  | some extra => cnv_extra_go extra
  | none => .ok []

/-- cnv_sem_acts models SchemaJsonCompiler::cnv_sem_acts: a stub that
always produces the empty list. -/
def cnv_sem_acts (_sem_acts : Option (List AstSemAct)) : List SemAct := []

/-- cnv_anns models the compiler's annotation conversion (cnv of the
annotation list): a stub that always produces the empty list. -/
def cnv_anns (_anns : Option (List AstAnn)) : List Ann := []

/-- cnv_predicate models SchemaJsonCompiler::cnv_predicate. -/
def cnv_predicate (predicate : JsonIriRef) : PResult PredIri :=
  .ok (PredIri.fromIri (IriS.new predicate.value))

/-- cnv_min models SchemaJsonCompiler::cnv_min: a declared negative min
is the MinLessZero compile error; an absent min defaults to 1. -/
def cnv_min (min : Option Int) : PResult MinVal :=
  match min with
  | some m => if m < 0 then .err (.minLessZero m) else .ok (MinVal.fromInt m)
  | none => .ok (MinVal.fromInt 1)

/-- cnv_max models SchemaJsonCompiler::cnv_max: a declared -1 is
Unbounded, any smaller declared value is the MaxIncorrect compile error,
and an absent max defaults to 1. -/
def cnv_max (max : Option Int) : PResult MaxVal :=
  match max with
  | some m =>
    if m = -1 then .ok .unbounded
    else if m < -1 then .err (.maxIncorrect m)
    else .ok (MaxVal.fromInt m)
  | none => .ok (MaxVal.fromInt 1)

/-- cnv_min_max models SchemaJsonCompiler::cnv_min_max. -/
def cnv_min_max (min : Option Int) (max : Option Int) : PResult Cardinality := do
  let minv ← cnv_min min
  let maxv ← cnv_max max
  pure (Cardinality.fromMinMax minv maxv)

/-- mk_card_group models SchemaJsonCompiler::mk_card_group: (1,1) stays
unwrapped, (0,unbounded) becomes Star, (1,unbounded) becomes Plus, and
every other cardinality becomes Repeat. -/
def mk_card_group (rbe : Rbe Component) (card : Cardinality) : Rbe Component :=
  if card.is_1_1 then rbe
  else if card.is_star then .star rbe
  else if card.is_plus then .plus rbe
  else .repeatRbe rbe card

mutual
/-- compile_shape_expr models SchemaJsonCompiler::compile_shape_expr:
lower one AST shape expression against the (read-only here) compiled
schema.  The idx argument is carried along exactly as in the source,
which never reads it in this function. -/
def compile_shape_expr (s : CompiledSchema) (idx : ShapeLabelIdx) :
    AstShapeExpr → PResult ShapeExpr
  | .ref se_ref => do
    let idx2 ← ref2idx s se_ref
    pure (.ref idx2)
  | .shapeOr ses => do
    let cnv ← compile_shape_expr_list s idx ses
    pure (.shapeOr cnv)
  | .shapeAnd ses => do
    let cnv ← compile_shape_expr_list s idx ses
    pure (.shapeAnd cnv)
  | .shapeNot sew => do
    let se ← compile_shape_expr s idx sew
    pure (.shapeNot se)
  | .shape closed extra expression sem_acts anns => do
    let new_extra ← cnv_extra extra
    let rbe_table ←
      match expression with
      | none => pure RbeTable.new
      | some te => do
        let (rbe, table) ← triple_expr2rbe s te RbeTable.new
        pure (table.with_rbe rbe)
    pure (.shape (cnv_closed closed) new_extra rbe_table
      (cnv_sem_acts sem_acts) (cnv_anns anns))
  | .nodeConstraint node_kind datatype xs_facet values => do
    let node_kind_cnv ← cnv_opt node_kind cnv_node_kind
    let datatype_cnv ← cnv_opt datatype cnv_iri_ref
    let xs_facet_cnv ← cnv_opt_vec xs_facet cnv_xs_facet
    let values_cnv ← cnv_opt_vec values cnv_value
    let cond ← cnv_node_constraint node_kind datatype xs_facet values
    pure (.nodeConstraint node_kind_cnv datatype_cnv xs_facet_cnv
      values_cnv cond)
  | .shapeExternal => todoTyped "compile_shape_expr: ShapeExternal"

/-- compile_shape_expr_list is the source's loop lowering a vector of
child shape expressions in order. -/
def compile_shape_expr_list (s : CompiledSchema) (idx : ShapeLabelIdx) :
    List AstShapeExpr → PResult (List ShapeExpr)
  | [] => .ok []
  | sew :: rest => do
    let se ← compile_shape_expr s idx sew
    let ses ← compile_shape_expr_list s idx rest
    pure (se :: ses)

/-- triple_expr2rbe models SchemaJsonCompiler::triple_expr2rbe: lower a
triple expression to an Rbe pattern, threading the component table that
the source mutates through add_component. -/
def triple_expr2rbe (s : CompiledSchema) :
    AstTripleExpr → RbeTable → PResult (Rbe Component × RbeTable)
  | .eachOf expressions min max, table => do
    let (cs, table1) ← triple_expr2rbe_list s expressions table
    let card ← cnv_min_max min max
    pure (mk_card_group (Rbe.andIter cs) card, table1)
  | .oneOf expressions min max, table => do
    let (cs, table1) ← triple_expr2rbe_list s expressions table
    let card ← cnv_min_max min max
    pure (mk_card_group (Rbe.orIter cs) card, table1)
  | .tripleConstraint predicate value_expr min max, table => do
    let minv ← cnv_min min
    let maxv ← cnv_max max
    let iri ← cnv_predicate predicate
    let cond ← value_expr2match_cond s value_expr
    let (c, table1) := table.add_component iri cond
    pure (Rbe.mkSymbol c minv.value maxv, table1)
  | .tripleExprRef r, _ => .err (.todoErr ("TripleExprRef " ++ r))

/-- triple_expr2rbe_list is the source's loop lowering a vector of child
triple expressions in order, threading the component table. -/
def triple_expr2rbe_list (s : CompiledSchema) :
    List AstTripleExpr → RbeTable → PResult (List (Rbe Component) × RbeTable)
  | [], table => .ok ([], table)
  | e :: rest, table => do
    let (c, table1) ← triple_expr2rbe s e table
    let (cs, table2) ← triple_expr2rbe_list s rest table1
    pure (c :: cs, table2)
end

/-- compile_shape_decl models SchemaJsonCompiler::compile_shape_decl. -/
def compile_shape_decl (s : CompiledSchema) (idx : ShapeLabelIdx)
    (sd : ShapeDecl) : PResult ShapeExpr :=
  compile_shape_expr s idx sd.shape_expr

/-- collect_shape_labels_go is the pass-1 loop: register every declared
label with a fresh index and an Empty placeholder, in declaration order.
The compiler struct's shape_decls_counter, which the source increments
but never reads, is omitted. -/
def collect_shape_labels_go : List ShapeDecl → CompiledSchema → PResult CompiledSchema
  | [], s => .ok s
  | sd :: rest, s => do
    let label ← id_to_shape_label sd.id
    collect_shape_labels_go rest (s.add_shape label .empty)

/-- collect_shape_labels models SchemaJsonCompiler::collect_shape_labels
(pass 1). -/
def collect_shape_labels (sj : SchemaJson) (s : CompiledSchema) :
    PResult CompiledSchema :=
  match sj.shapes with
  | none => .ok s
  | some sds => collect_shape_labels_go sds s

/-- collect_shape_exprs_go is the pass-2 loop: recompute each declared
shape's index, lower its body, and replace its placeholder. -/
def collect_shape_exprs_go : List ShapeDecl → CompiledSchema → PResult CompiledSchema
  | [], s => .ok s
  | sd :: rest, s => do
    let idx ← get_shape_label_idx_of_id sd.id s
    let se ← compile_shape_decl s idx sd
    collect_shape_exprs_go rest (s.replace_shape idx se)

/-- collect_shape_exprs models SchemaJsonCompiler::collect_shape_exprs
(pass 2). -/
def collect_shape_exprs (sj : SchemaJson) (s : CompiledSchema) :
    PResult CompiledSchema :=
  match sj.shapes with
  | none => .ok s
  | some sds => collect_shape_exprs_go sds s

/-- compile models SchemaJsonCompiler::compile: pass 1 then pass 2. -/
def compile (sj : SchemaJson) (s : CompiledSchema) : PResult CompiledSchema := do
  let s1 ← collect_shape_labels sj s
  let s2 ← collect_shape_exprs sj s1
  pure s2

theorem alLookup_alInsert_self {κ α : Type} [DecidableEq κ] (k : κ) (v : α)
    (l : List (κ × α)) : alLookup k (alInsert k v l) = some v := by
  induction l with
  | nil => simp [alInsert, alLookup]
  | cons hd tl ih =>
    obtain ⟨k', v'⟩ := hd
    by_cases h : k' = k
    · subst h
      simp [alInsert, alLookup]
    · simp [alInsert, alLookup, h, ih]

theorem alLookup_alInsert_ne {κ α : Type} [DecidableEq κ] {k k' : κ} (v : α)
    (l : List (κ × α)) (h : k' ≠ k) :
    alLookup k' (alInsert k v l) = alLookup k' l := by
  induction l with
  | nil => simp [alInsert, alLookup, Ne.symm h]
  | cons hd tl ih =>
    obtain ⟨k0, v0⟩ := hd
    by_cases h0 : k0 = k
    · subst h0
      simp [alInsert, alLookup, Ne.symm h]
    · simp only [alInsert, if_neg h0, alLookup]
      by_cases h1 : k0 = k'
      · simp [h1]
      · simp [h1, ih]

theorem alLookup_alInsert_isSome {κ α : Type} [DecidableEq κ] {k k' : κ}
    (v : α) (l : List (κ × α)) (h : (alLookup k' l).isSome) :
    (alLookup k' (alInsert k v l)).isSome := by
  by_cases he : k' = k
  · subst he
    simp [alLookup_alInsert_self]
  · rwa [alLookup_alInsert_ne v l he]

theorem alModify_not_mem {κ α : Type} [DecidableEq κ] {k : κ} (f : α → α)
    {l : List (κ × α)} (h : alLookup k l = none) : alModify k f l = l := by
  induction l with
  | nil => simp [alModify]
  | cons hd tl ih =>
    obtain ⟨k0, v0⟩ := hd
    by_cases h0 : k0 = k
    · subst h0
      simp [alLookup] at h
    · simp only [alLookup, if_neg h0] at h
      simp [alModify, h0, ih h]

theorem alLookup_alModify_self {κ α : Type} [DecidableEq κ] {k : κ}
    (f : α → α) {l : List (κ × α)} {v : α} (h : alLookup k l = some v) :
    alLookup k (alModify k f l) = some (f v) := by
  induction l with
  | nil => simp [alLookup] at h
  | cons hd tl ih =>
    obtain ⟨k0, v0⟩ := hd
    by_cases h0 : k0 = k
    · subst h0
      simp only [alLookup, if_pos rfl] at h
      cases h
      simp [alModify, alLookup]
    · simp only [alLookup, if_neg h0] at h
      simp [alModify, alLookup, h0, ih h]

theorem alLookup_alModify_ne {κ α : Type} [DecidableEq κ] {k k' : κ}
    (f : α → α) (l : List (κ × α)) (h : k' ≠ k) :
    alLookup k' (alModify k f l) = alLookup k' l := by
  induction l with
  | nil => simp [alModify]
  | cons hd tl ih =>
    obtain ⟨k0, v0⟩ := hd
    by_cases h0 : k0 = k
    · subst h0
      simp [alModify, alLookup, Ne.symm h]
    · simp only [alModify, if_neg h0, alLookup]
      by_cases h1 : k0 = k'
      · simp [h1]
      · simp [h1, ih]

theorem PResult.bind_eq_ok {α β : Type} {a : PResult α} {f : α → PResult β}
    {b : β} (h : PResult.bind a f = .ok b) :
    ∃ a', a = .ok a' ∧ f a' = .ok b := by
  cases a with
  | ok a' => exact ⟨a', rfl, h⟩
  | err e => simp [PResult.bind] at h
  | panicked m => simp [PResult.bind] at h

theorem PResult.seq_eq_ok {α β : Type} {a : PResult α} {f : α → PResult β}
    {b : β} (h : a >>= f = .ok b) : ∃ a', a = .ok a' ∧ f a' = .ok b :=
  PResult.bind_eq_ok h

/-- iriExS is a concrete IRI used by the witnesses. -/
def iriExS : IriS := IriS.new "http://ex/S"

/-- labExS is a concrete shape label used by the witnesses. -/
def labExS : ShapeLabel := .iri iriExS

/-- pmW is a concrete prefix map used by the witnesses: it resolves the
ex prefix and fails on every other one. -/
def pmW : PrefixMap :=
  ⟨fun p l =>
    if p = "ex" then .ok (IriS.new ("http://ex/" ++ l))
    else .error ⟨"not found"⟩⟩

/-- sW is a concrete compiled schema used by the find_ref witnesses. -/
def sW : CompiledSchema :=
  ⟨[(ShapeLabel.iri (IriS.new "http://ex/a"), ⟨7⟩)], [], ⟨8⟩, pmW⟩

/-- s4W is a concrete compiled schema used by the replace_shape witness. -/
def s4W : CompiledSchema :=
  ⟨[(labExS, ⟨0⟩)],
   [(⟨0⟩, (labExS, .empty)), (⟨1⟩, (.bnode "b", .empty))],
   ⟨2⟩, PrefixMap.default⟩

/-- s9W is a concrete compiled schema used by the shape-reference witness. -/
def s9W : CompiledSchema := ⟨[(labExS, ⟨3⟩)], [], ⟨4⟩, PrefixMap.default⟩

/-- sdW is a concrete shape declaration used by the compile witness. -/
def sdW : ShapeDecl := ⟨"http://ex/S", .nodeConstraint none none none none⟩

/-- sjW is a concrete schema AST used by the compile witness. -/
def sjW : SchemaJson := ⟨some [sdW]⟩

/-- s1W is the compiled schema that compiling sjW from a fresh schema
produces. -/
def s1W : CompiledSchema :=
  ⟨[(labExS, ⟨0⟩)],
   [(⟨0⟩, (labExS, .nodeConstraint none none none none MatchCond.emptyCond))],
   ⟨1⟩, PrefixMap.default⟩

/-- add_shape_list folds add_shape over a list of labels with Empty
placeholders, in order: the call pattern of pass 1. -/
def add_shape_list (s : CompiledSchema) (labels : List ShapeLabel) :
    CompiledSchema :=
  labels.foldl (fun acc l => acc.add_shape l .empty) s

/-- C10: find_ref never mutates the CompiledSchema even though the
source takes a mutable reference: whatever the reference argument and
the outcome, the returned state — label map, shapes table, counter and
prefix map — is exactly the input state. -/
theorem find_ref_no_mutation (s : CompiledSchema) (r : ShapeExprLabel) :
    (s.find_ref r).1 = s := by
  unfold CompiledSchema.find_ref
  cases r with
  | iriRef ir =>
    cases ir with
    | iri i =>
      dsimp only
      split <;> rfl
    | prefixed p l =>
      dsimp only
      cases hres : s.pmap.resolvePrefixLocal p l with
      | error e => simp [hres]
      | ok iri =>
        simp only [hres]
        split <;> rfl
  | bNode v =>
    dsimp only
    split <;> rfl
  | start =>
    dsimp only
    split <;> rfl

/-- C5: find_ref resolves an absolute IRI reference directly to an IRI
label; resolves a prefixed reference through resolvePrefixLocal, turning
a resolution failure into a typed PrefixedNotFound error wrapping the
underlying cause; resolves Start to the Start label; and in every
successful resolution returns Ok with the stored index exactly when the
resolved label is registered, and a typed LabelNotFound error otherwise. -/
theorem find_ref_resolution :
    (∀ (s : CompiledSchema) (iri : IriS),
      (s.find_ref (.iriRef (.iri iri))).2 =
        (match alLookup (ShapeLabel.iri iri) s.shape_labels_map with
         | some idx => Except.ok idx
         | none => Except.error (.labelNotFound (ShapeLabel.iri iri)))) ∧
    (∀ (s : CompiledSchema) (pfx localName : String) (err : PrefixMapError),
      s.pmap.resolvePrefixLocal pfx localName = .error err →
      (s.find_ref (.iriRef (.prefixed pfx localName))).2 =
        Except.error (.prefixedNotFound pfx localName err)) ∧
    (∀ (s : CompiledSchema) (pfx localName : String) (iri : IriS),
      s.pmap.resolvePrefixLocal pfx localName = .ok iri →
      (s.find_ref (.iriRef (.prefixed pfx localName))).2 =
        (match alLookup (ShapeLabel.iri iri) s.shape_labels_map with
         | some idx => Except.ok idx
         | none => Except.error (.labelNotFound (ShapeLabel.iri iri)))) ∧
    (∀ (s : CompiledSchema),
      (s.find_ref .start).2 =
        (match alLookup ShapeLabel.start s.shape_labels_map with
         | some idx => Except.ok idx
         | none => Except.error (.labelNotFound ShapeLabel.start))) := by
  refine ⟨?_, ?_, ?_, ?_⟩
  · intro s iri
    unfold CompiledSchema.find_ref
    dsimp only
    split <;> simp_all
  · intro s pfx localName err hres
    unfold CompiledSchema.find_ref
    simp [hres]
  · intro s pfx localName iri hres
    unfold CompiledSchema.find_ref
    simp only [hres]
    split <;> simp_all
  · intro s
    unfold CompiledSchema.find_ref
    dsimp only
    split <;> simp_all

/-- Witness for find_ref_resolution: on the concrete schema sW the
prefixed reference ex:a resolves and is found at index 7, and a failing
prefix resolution is wrapped in PrefixedNotFound. -/
theorem find_ref_resolution_witness :
    (sW.pmap.resolvePrefixLocal "ex" "a" = .ok (IriS.new "http://ex/a") ∧
      (sW.find_ref (.iriRef (.prefixed "ex" "a"))).2 = .ok ⟨7⟩) ∧
    (sW.pmap.resolvePrefixLocal "bad" "x" = .error ⟨"not found"⟩ ∧
      (sW.find_ref (.iriRef (.prefixed "bad" "x"))).2 =
        .error (.prefixedNotFound "bad" "x" ⟨"not found"⟩)) :=
  ⟨⟨rfl, find_ref_resolution.2.2.1 sW "ex" "a" (IriS.new "http://ex/a") rfl⟩,
   ⟨rfl, find_ref_resolution.2.1 sW "bad" "x" ⟨"not found"⟩ rfl⟩⟩

/-- C4: replace_shape with an index absent from the shapes table silently
does nothing — the whole state is returned unchanged — and with a present
index it replaces only that entry's shape expression, keeping the entry's
label, every other entry, the label map, the counter and the prefix map. -/
theorem replace_shape_frame (s : CompiledSchema) (idx : ShapeLabelIdx)
    (se : ShapeExpr) :
    (alLookup idx s.shapes = none → s.replace_shape idx se = s) ∧
    (∀ lab se0, alLookup idx s.shapes = some (lab, se0) →
      alLookup idx (s.replace_shape idx se).shapes = some (lab, se) ∧
      (∀ j, j ≠ idx →
        alLookup j (s.replace_shape idx se).shapes = alLookup j s.shapes) ∧
      (s.replace_shape idx se).shape_labels_map = s.shape_labels_map ∧
      (s.replace_shape idx se).shape_label_counter = s.shape_label_counter ∧
      (s.replace_shape idx se).pmap = s.pmap) := by
  constructor
  · intro habs
    cases s with
    | mk m sh c pm =>
      simp only [CompiledSchema.replace_shape]
      congr 1
      exact alModify_not_mem _ habs
  · intro lab se0 hpres
    refine ⟨?_, ?_, rfl, rfl, rfl⟩
    · have := alLookup_alModify_self (fun p => (p.1, se)) hpres
      simpa using this
    · intro j hj
      exact alLookup_alModify_ne _ _ hj

/-- Witness for replace_shape_frame: on the concrete schema s4W, index 0
is present with label labExS, and replacing it keeps the label, rewrites
the expression, and leaves the other entry and the other fields alone. -/
theorem replace_shape_frame_witness :
    (alLookup (⟨0⟩ : ShapeLabelIdx) s4W.shapes = some (labExS, .empty)) ∧
    (alLookup (⟨5⟩ : ShapeLabelIdx) s4W.shapes = none ∧
      s4W.replace_shape ⟨5⟩ (.ref ⟨0⟩) = s4W) ∧
    (alLookup (⟨0⟩ : ShapeLabelIdx) (s4W.replace_shape ⟨0⟩ (.ref ⟨0⟩)).shapes =
      some (labExS, .ref ⟨0⟩)) :=
  ⟨rfl,
   ⟨rfl, (replace_shape_frame s4W ⟨5⟩ (.ref ⟨0⟩)).1 rfl⟩,
   ((replace_shape_frame s4W ⟨0⟩ (.ref ⟨0⟩)).2 labExS .empty rfl).1⟩

/-- C6: cardinality validation at compile time: a declared min below zero
is the MinLessZero compile error and a declared non-negative min is kept;
an absent min defaults to 1; a declared max of -1 becomes Unbounded; a
declared max below -1 is the MaxIncorrect compile error; an absent max
defaults to 1. -/
theorem cardinality_validation :
    (∀ m : Int, m < 0 → cnv_min (some m) = .err (.minLessZero m)) ∧
    (∀ m : Int, 0 ≤ m → cnv_min (some m) = .ok (MinVal.fromInt m)) ∧
    cnv_min none = .ok (MinVal.fromInt 1) ∧
    cnv_max (some (-1)) = .ok .unbounded ∧
    (∀ m : Int, m < -1 → cnv_max (some m) = .err (.maxIncorrect m)) ∧
    (∀ m : Int, 0 ≤ m → cnv_max (some m) = .ok (MaxVal.fromInt m)) ∧
    cnv_max none = .ok (MaxVal.fromInt 1) := by
  refine ⟨?_, ?_, rfl, rfl, ?_, ?_, rfl⟩
  · intro m h
    simp [cnv_min, h]
  · intro m h
    simp [cnv_min, not_lt.mpr h]
  · intro m h
    have h1 : m ≠ -1 := by omega
    simp [cnv_max, h1, h]
  · intro m h
    have h1 : m ≠ -1 := by omega
    have h2 : ¬ m < -1 := by omega
    simp [cnv_max, h1, h2]

/-- Witness for cardinality_validation: the concrete values -1 (min),
-2 and -1 (max) exercise the hypotheses. -/
theorem cardinality_validation_witness :
    ((-1 : Int) < 0 ∧ cnv_min (some (-1)) = .err (.minLessZero (-1))) ∧
    ((-2 : Int) < -1 ∧ cnv_max (some (-2)) = .err (.maxIncorrect (-2))) ∧
    ((0 : Int) ≤ 3 ∧ cnv_max (some 3) = .ok (MaxVal.fromInt 3)) :=
  ⟨⟨by decide, cardinality_validation.1 (-1) (by decide)⟩,
   ⟨by decide, cardinality_validation.2.2.2.2.1 (-2) (by decide)⟩,
   ⟨by decide, cardinality_validation.2.2.2.2.2.1 3 (by decide)⟩⟩

/-- C8: the compiled datatype condition: a datatyped literal succeeds
exactly when its datatype IRI equals the expected IRI; an untyped string
literal succeeds exactly when the expected IRI is xsd:string; a
language-tagged literal succeeds exactly when the expected IRI is
rdf:langString; every other node yields a typed datatype error, never a
success; and the match condition built by mk_cond_datatype reproduces
check_node_datatype, turning its error into a failure and its success
into an empty pending set. -/
theorem datatype_condition :
    (∀ (dt d : IriS) (lf : String),
      check_node_datatype ⟨.literal (.datatypeLiteral d lf)⟩ dt =
        if dt = d then .ok () else .error (.datatypeDontMatch dt d lf)) ∧
    (∀ (dt : IriS) (lf : String),
      check_node_datatype ⟨.literal (.stringLiteral lf none)⟩ dt =
        if dt = XSD_STRING then .ok ()
        else .error (.datatypeDontMatchString dt lf)) ∧
    (∀ (dt : IriS) (lf : String) (lang : Lang),
      check_node_datatype ⟨.literal (.stringLiteral lf (some lang))⟩ dt =
        if dt = RDF_LANG_STRING then .ok ()
        else .error (.datatypeDontMatchLangString dt lf lang)) ∧
    (∀ (dt i : IriS),
      check_node_datatype ⟨.iri i⟩ dt =
        .error (.datatypeNoLiteral dt ⟨.iri i⟩)) ∧
    (∀ (dt : IriS) (b : String),
      check_node_datatype ⟨.blankNode b⟩ dt =
        .error (.datatypeNoLiteral dt ⟨.blankNode b⟩)) ∧
    (∀ (dt : IriS) (b : Bool),
      check_node_datatype ⟨.literal (.booleanLiteral b)⟩ dt =
        .error (.datatypeNoLiteral dt ⟨.literal (.booleanLiteral b)⟩)) ∧
    (∀ (dt : IriS) (n : Int),
      check_node_datatype ⟨.literal (.numericLiteral n)⟩ dt =
        .error (.datatypeNoLiteral dt ⟨.literal (.numericLiteral n)⟩)) ∧
    (∀ (dt : IriS) (n : Node),
      (mk_cond_datatype dt).matches n =
        match check_node_datatype n dt with
        | .ok _ => .ok Pending.new
        | .error err => .error (.msgError ("Datatype error: " ++ reprStr err))) := by
  refine ⟨fun dt d lf => rfl, fun dt lf => rfl, fun dt lf lang => rfl,
    fun dt i => rfl, fun dt b => rfl, fun dt b => rfl, fun dt n => rfl,
    fun dt n => ?_⟩
  simp only [mk_cond_datatype, MatchCond.mkSingle, MatchCond.matches,
    SingleCond.matches, SingleCond.new, SingleCond.with_name,
    SingleCond.with_cond]

/-- C9: the match condition compiled from a shape reference with resolved
index idx, applied to any node value, always returns Ok with the single
pending obligation (node, idx) — never an error, and independent of the
referenced shape's content — and value_expr2match_cond on a reference
that resolves to idx produces exactly that condition. -/
theorem shape_ref_condition :
    (∀ (idx : ShapeLabelIdx) (v : Node),
      (mk_cond_ref idx).matches v = .ok (Pending.from_pair v idx)) ∧
    (∀ (s : CompiledSchema) (sref : AstRef) (idx : ShapeLabelIdx),
      ref2idx s sref = .ok idx →
      value_expr2match_cond s (some (.ref sref)) = .ok (mk_cond_ref idx)) := by
  constructor
  · intro idx v
    simp only [mk_cond_ref, MatchCond.mkSingle, MatchCond.matches,
      SingleCond.matches, SingleCond.new, SingleCond.with_name,
      SingleCond.with_cond]
  · intro s sref idx h
    simp only [value_expr2match_cond, h]
    rfl

/-- Witness for shape_ref_condition: on the concrete schema s9W the
reference to http://ex/S resolves to index 3 and compiles to the pending
condition of index 3. -/
theorem shape_ref_condition_witness :
    ref2idx s9W (.iriRef "http://ex/S") = .ok ⟨3⟩ ∧
    value_expr2match_cond s9W (some (.ref (.iriRef "http://ex/S"))) =
      .ok (mk_cond_ref ⟨3⟩) :=
  ⟨rfl, shape_ref_condition.2 s9W (.iriRef "http://ex/S") ⟨3⟩ rfl⟩

/-- C2 (divergence witness): compiling a NodeConstraint with a declared
node kind does not return Ok or a typed compile error — it panics, via
the unimplemented cnv_node_kind stub, contradicting the claim that
compile_shape_expr is total with typed errors. -/
theorem node_constraint_node_kind_panics :
    compile_shape_expr CompiledSchema.new ShapeLabelIdx.new
      (.nodeConstraint (some .iri) none none none) = .panicked panicMsg := rfl

theorem add_shape_list_cons (s : CompiledSchema) (l : ShapeLabel)
    (ls : List ShapeLabel) :
    add_shape_list s (l :: ls) = add_shape_list (s.add_shape l .empty) ls := rfl

theorem add_shape_list_lookup_not_mem (ls : List ShapeLabel) (s : CompiledSchema)
    {L : ShapeLabel} (h : L ∉ ls) :
    alLookup L (add_shape_list s ls).shape_labels_map =
      alLookup L s.shape_labels_map := by
  induction ls generalizing s with
  | nil => rfl
  | cons l rest ih =>
    have hne : L ≠ l := fun e => h (e ▸ List.mem_cons_self l rest)
    have hrest : L ∉ rest := fun e => h (List.mem_cons_of_mem l e)
    rw [add_shape_list_cons, ih _ hrest]
    exact alLookup_alInsert_ne _ _ hne

theorem add_shape_list_lookup_get (ls : List ShapeLabel) (s : CompiledSchema)
    (hnd : ls.Nodup) (i : Nat) (h : i < ls.length) :
    alLookup (ls.get ⟨i, h⟩) (add_shape_list s ls).shape_labels_map =
      some ⟨s.shape_label_counter.idx + i⟩ := by
  induction ls generalizing s i with
  | nil => exact absurd h (by simp)
  | cons l rest ih =>
    have hnotmem : l ∉ rest := (List.nodup_cons.mp hnd).1
    have hndrest : rest.Nodup := (List.nodup_cons.mp hnd).2
    cases i with
    | zero =>
      simp only [List.get]
      rw [add_shape_list_cons, add_shape_list_lookup_not_mem rest _ hnotmem]
      show alLookup l (alInsert l s.shape_label_counter s.shape_labels_map) = _
      rw [alLookup_alInsert_self]
      simp
    | succ j =>
      have hj : j < rest.length := by
        simpa using Nat.lt_of_succ_lt_succ h
      simp only [List.get]
      rw [add_shape_list_cons]
      rw [ih (s.add_shape l .empty) hndrest j hj]
      congr 1
      show ShapeLabelIdx.mk (s.shape_label_counter.idx + 1 + j) = _
      congr 1
      omega

/-- Counterexample for C3: add_shape never fails; calling it a second
time with an already-added label is a silent success that rebinds the
label to the fresh index 1 and inserts a second table entry, while the
first call had bound the same label to index 0. -/
theorem add_shape_duplicate_counterexample :
    alLookup labExS
      (((CompiledSchema.new.add_shape labExS .empty).add_shape labExS .empty)).shape_labels_map
      = some ⟨1⟩ ∧
    alLookup (⟨1⟩ : ShapeLabelIdx)
      (((CompiledSchema.new.add_shape labExS .empty).add_shape labExS .empty)).shapes
      = some (labExS, .empty) ∧
    ((CompiledSchema.new.add_shape labExS .empty).add_shape labExS .empty).shape_label_counter
      = ⟨2⟩ ∧
    alLookup labExS (CompiledSchema.new.add_shape labExS .empty).shape_labels_map
      = some ⟨0⟩ :=
  ⟨rfl, rfl, rfl, rfl⟩

/-- C3 (amended): add_shape assigns each added label the next unused
index in call order — from a fresh schema, the i-th distinct label is
bound to index i — and a second call with an already-added label does
not fail: add_shape is total and silently rebinds the label to the
then-current counter, leaving the earlier entry stale. -/
theorem add_shape_indices_amended :
    (∀ (labels : List ShapeLabel), labels.Nodup →
      ∀ (i : Nat) (h : i < labels.length),
        alLookup (labels.get ⟨i, h⟩)
          (add_shape_list CompiledSchema.new labels).shape_labels_map =
          some ⟨i⟩) ∧
    (∀ (s : CompiledSchema) (L : ShapeLabel) (e1 e2 : ShapeExpr),
      alLookup L ((s.add_shape L e1).add_shape L e2).shape_labels_map =
        some (s.add_shape L e1).shape_label_counter) := by
  constructor
  · intro labels hnd i h
    have := add_shape_list_lookup_get labels CompiledSchema.new hnd i h
    simpa [CompiledSchema.new, ShapeLabelIdx.new] using this
  · intro s L e1 e2
    exact alLookup_alInsert_self _ _ _

/-- Witness for add_shape_indices_amended: two distinct concrete labels
are bound to indices 0 and 1 in call order. -/
theorem add_shape_indices_amended_witness :
    ([labExS, ShapeLabel.bnode "b"].Nodup ∧
      alLookup (ShapeLabel.bnode "b")
        (add_shape_list CompiledSchema.new [labExS, ShapeLabel.bnode "b"]).shape_labels_map =
        some ⟨1⟩) ∧
    alLookup labExS
      ((sW.add_shape labExS .empty).add_shape labExS (.ref ⟨0⟩)).shape_labels_map =
      some (sW.add_shape labExS .empty).shape_label_counter :=
  ⟨⟨by decide,
    add_shape_indices_amended.1 [labExS, ShapeLabel.bnode "b"] (by decide) 1
      (by decide)⟩,
   add_shape_indices_amended.2 sW labExS .empty (.ref ⟨0⟩)⟩

theorem PResult.ok_bind {α β : Type} (a : α) (f : α → PResult β) :
    (PResult.ok a >>= f) = f a := rfl

/-- C7: lowering applies cardinality wrapping as stated — (1,1) is left
unwrapped, (0,unbounded) produces Star, (1,unbounded) produces Plus, any
other cardinality produces Repeat carrying it — and a leaf triple
constraint registers a fresh component (predicate, composed condition) at
the next component id of the table and becomes an Rbe symbol carrying its
cardinality. -/
theorem triple_expr_lowering :
    (∀ (rbe : Rbe Component),
      mk_card_group rbe (Cardinality.fromMinMax (MinVal.fromInt 1) (.intMax 1)) =
        rbe) ∧
    (∀ (rbe : Rbe Component),
      mk_card_group rbe (Cardinality.fromMinMax (MinVal.fromInt 0) .unbounded) =
        .star rbe) ∧
    (∀ (rbe : Rbe Component),
      mk_card_group rbe (Cardinality.fromMinMax (MinVal.fromInt 1) .unbounded) =
        .plus rbe) ∧
    (∀ (rbe : Rbe Component) (card : Cardinality),
      card.is_1_1 = false → card.is_star = false → card.is_plus = false →
      mk_card_group rbe card = .repeatRbe rbe card) ∧
    (∀ (s : CompiledSchema) (pred : JsonIriRef) (ve : Option AstShapeExpr)
      (minD maxD : Option Int) (minv : MinVal) (maxv : MaxVal) (cond : Cond)
      (table : RbeTable),
      cnv_min minD = .ok minv → cnv_max maxD = .ok maxv →
      value_expr2match_cond s ve = .ok cond →
      triple_expr2rbe s (.tripleConstraint pred ve minD maxD) table =
        .ok (Rbe.mkSymbol ⟨table.component_counter⟩ minv.value maxv,
          { table with
            components := table.components ++
              [(⟨table.component_counter⟩,
                (PredIri.fromIri (IriS.new pred.value), cond))]
            component_counter := table.component_counter + 1 })) := by
  refine ⟨fun rbe => rfl, fun rbe => rfl, fun rbe => rfl, ?_, ?_⟩
  · intro rbe card h1 h2 h3
    simp [mk_card_group, h1, h2, h3]
  · intro s pred ve minD maxD minv maxv cond table h1 h2 h3
    simp only [triple_expr2rbe, h1, h2, h3, PResult.ok_bind, cnv_predicate]
    rfl

/-- Witness for triple_expr_lowering: a concrete leaf constraint with
absent min/max and no value expression is lowered to a symbol with
cardinality (1,1) registered as component 0 of a fresh table; and the
concrete cardinality (2,5) is wrapped as Repeat. -/
theorem triple_expr_lowering_witness :
    ((Cardinality.fromMinMax (MinVal.fromInt 2) (.intMax 5)).is_1_1 = false ∧
     (Cardinality.fromMinMax (MinVal.fromInt 2) (.intMax 5)).is_star = false ∧
     (Cardinality.fromMinMax (MinVal.fromInt 2) (.intMax 5)).is_plus = false ∧
     mk_card_group (.and []) (Cardinality.fromMinMax (MinVal.fromInt 2) (.intMax 5)) =
       .repeatRbe (.and []) (Cardinality.fromMinMax (MinVal.fromInt 2) (.intMax 5))) ∧
    (cnv_min none = .ok (MinVal.fromInt 1) ∧
     cnv_max none = .ok (MaxVal.fromInt 1) ∧
     value_expr2match_cond CompiledSchema.new none =
       .ok (MatchCond.mkSingle (SingleCond.new.with_name ".")) ∧
     triple_expr2rbe CompiledSchema.new
       (.tripleConstraint ⟨"http://ex/p"⟩ none none none) RbeTable.new =
       .ok (Rbe.mkSymbol ⟨0⟩ 1 (.intMax 1),
         { RbeTable.new with
           components := [(⟨0⟩,
             (PredIri.fromIri (IriS.new "http://ex/p"),
              MatchCond.mkSingle (SingleCond.new.with_name ".")))]
           component_counter := 1 })) :=
  ⟨⟨rfl, rfl, rfl,
    triple_expr_lowering.2.2.2.1 (.and [])
      (Cardinality.fromMinMax (MinVal.fromInt 2) (.intMax 5)) rfl rfl rfl⟩,
   ⟨rfl, rfl, rfl,
    triple_expr_lowering.2.2.2.2 CompiledSchema.new ⟨"http://ex/p"⟩ none none
      none (MinVal.fromInt 1) (MaxVal.fromInt 1)
      (MatchCond.mkSingle (SingleCond.new.with_name ".")) RbeTable.new
      rfl rfl rfl⟩⟩

theorem PResult.pure_eq {α : Type} (a : α) : (pure a : PResult α) = .ok a := rfl

/-- goodMap is the pass-1 invariant: every label binding points to a
shapes entry carrying that same label, at an index below the counter. -/
def goodMap (s : CompiledSchema) : Prop :=
  ∀ L idx, alLookup L s.shape_labels_map = some idx →
    (∃ se, alLookup idx s.shapes = some (L, se)) ∧
    idx.idx < s.shape_label_counter.idx

/-- goodMap2 is the pass-2 invariant: every label binding points to a
shapes entry carrying that same label. -/
def goodMap2 (s : CompiledSchema) : Prop :=
  ∀ L idx, alLookup L s.shape_labels_map = some idx →
    ∃ se, alLookup idx s.shapes = some (L, se)

theorem goodMap_add_shape {s : CompiledSchema} (l : ShapeLabel) (e : ShapeExpr)
    (hg : goodMap s) : goodMap (s.add_shape l e) := by
  intro L idx h
  show _ ∧ idx.idx < s.shape_label_counter.idx + 1
  by_cases hL : L = l
  · subst hL
    rw [show (s.add_shape L e).shape_labels_map =
        alInsert L s.shape_label_counter s.shape_labels_map from rfl,
      alLookup_alInsert_self] at h
    cases h
    refine ⟨⟨e, ?_⟩, by omega⟩
    exact alLookup_alInsert_self _ _ _
  · rw [show (s.add_shape l e).shape_labels_map =
        alInsert l s.shape_label_counter s.shape_labels_map from rfl,
      alLookup_alInsert_ne _ _ hL] at h
    obtain ⟨⟨se, hse⟩, hlt⟩ := hg L idx h
    have hne : idx ≠ s.shape_label_counter := by
      intro e'
      rw [e'] at hlt
      omega
    refine ⟨⟨se, ?_⟩, by omega⟩
    rw [show (s.add_shape l e).shapes =
        alInsert s.shape_label_counter (l, e) s.shapes from rfl,
      alLookup_alInsert_ne _ _ hne]
    exact hse

theorem pass1_good : ∀ (sds : List ShapeDecl) (s s' : CompiledSchema),
    collect_shape_labels_go sds s = .ok s' → goodMap s → goodMap s' := by
  intro sds
  induction sds with
  | nil =>
    intro s s' h hg
    cases h
    exact hg
  | cons sd rest ih =>
    intro s s' h hg
    simp only [collect_shape_labels_go, id_to_shape_label,
      ShapeLabel.from_iri_str, toP, PResult.ok_bind] at h
    exact ih _ _ h (goodMap_add_shape _ _ hg)

theorem pass1_isSome_mono : ∀ (sds : List ShapeDecl) (s s' : CompiledSchema)
    (L : ShapeLabel), collect_shape_labels_go sds s = .ok s' →
    (alLookup L s.shape_labels_map).isSome →
    (alLookup L s'.shape_labels_map).isSome := by
  intro sds
  induction sds with
  | nil =>
    intro s s' L h hs
    cases h
    exact hs
  | cons sd rest ih =>
    intro s s' L h hs
    simp only [collect_shape_labels_go, id_to_shape_label,
      ShapeLabel.from_iri_str, toP, PResult.ok_bind] at h
    refine ih _ _ L h ?_
    exact alLookup_alInsert_isSome _ _ hs

theorem pass1_declared : ∀ (sds : List ShapeDecl) (s s' : CompiledSchema),
    collect_shape_labels_go sds s = .ok s' → ∀ sd ∈ sds,
    (alLookup (ShapeLabel.iri (IriS.new sd.id)) s'.shape_labels_map).isSome := by
  intro sds
  induction sds with
  | nil =>
    intro s s' _ sd hmem
    simp at hmem
  | cons hd rest ih =>
    intro s s' h sd hmem
    simp only [collect_shape_labels_go, id_to_shape_label,
      ShapeLabel.from_iri_str, toP, PResult.ok_bind] at h
    rcases List.mem_cons.mp hmem with heq | hmem'
    · subst heq
      refine pass1_isSome_mono rest _ _ _ h ?_
      rw [show (s.add_shape (ShapeLabel.iri (IriS.new sd.id)) .empty).shape_labels_map =
          alInsert (ShapeLabel.iri (IriS.new sd.id)) s.shape_label_counter
            s.shape_labels_map from rfl,
        alLookup_alInsert_self]
      rfl
    · exact ih _ _ h sd hmem'

theorem get_shape_label_idx_of_id_ok {id : String} {s : CompiledSchema}
    {idx : ShapeLabelIdx} (h : get_shape_label_idx_of_id id s = .ok idx) :
    alLookup (ShapeLabel.iri (IriS.new id)) s.shape_labels_map = some idx := by
  simp only [get_shape_label_idx_of_id, id_to_shape_label,
    ShapeLabel.from_iri_str, toP, PResult.ok_bind,
    CompiledSchema.get_shape_label_idx] at h
  revert h
  cases hlk : alLookup (ShapeLabel.iri (IriS.new id)) s.shape_labels_map with
  | none => intro h; simp [toP] at h
  | some i => intro h; simp [toP] at h; rw [h]

theorem compile_shape_expr_ne_empty {s : CompiledSchema} {idx : ShapeLabelIdx}
    {ast : AstShapeExpr} {se : ShapeExpr}
    (h : compile_shape_expr s idx ast = .ok se) : se ≠ .empty := by
  cases ast with
  | ref r =>
    simp only [compile_shape_expr] at h
    obtain ⟨i2, _, h2⟩ := PResult.seq_eq_ok h
    rw [PResult.pure_eq] at h2
    cases h2
    simp
  | shapeOr ses =>
    simp only [compile_shape_expr] at h
    obtain ⟨cnv, _, h2⟩ := PResult.seq_eq_ok h
    rw [PResult.pure_eq] at h2
    cases h2
    simp
  | shapeAnd ses =>
    simp only [compile_shape_expr] at h
    obtain ⟨cnv, _, h2⟩ := PResult.seq_eq_ok h
    rw [PResult.pure_eq] at h2
    cases h2
    simp
  | shapeNot sew =>
    simp only [compile_shape_expr] at h
    obtain ⟨se2, _, h2⟩ := PResult.seq_eq_ok h
    rw [PResult.pure_eq] at h2
    cases h2
    simp
  | shape closed extra expression sem_acts anns =>
    simp only [compile_shape_expr] at h
    obtain ⟨ex2, _, h2⟩ := PResult.seq_eq_ok h
    cases expression with
    | none =>
      obtain ⟨tbl, _, h3⟩ := PResult.seq_eq_ok h2
      rw [PResult.pure_eq] at h3
      cases h3
      simp
    | some te =>
      obtain ⟨pr, _, h3⟩ := PResult.seq_eq_ok h2
      obtain ⟨tbl, _, h4⟩ := PResult.seq_eq_ok h3
      rw [PResult.pure_eq] at h4
      cases h4
      simp
  | nodeConstraint nk dt xsf vals =>
    simp only [compile_shape_expr] at h
    obtain ⟨a1, _, h2⟩ := PResult.seq_eq_ok h
    obtain ⟨a2, _, h3⟩ := PResult.seq_eq_ok h2
    obtain ⟨a3, _, h4⟩ := PResult.seq_eq_ok h3
    obtain ⟨a4, _, h5⟩ := PResult.seq_eq_ok h4
    obtain ⟨a5, _, h6⟩ := PResult.seq_eq_ok h5
    rw [PResult.pure_eq] at h6
    cases h6
    simp
  | shapeExternal =>
    simp only [compile_shape_expr, todoTyped] at h
    exact PResult.noConfusion h

theorem goodMap2_replace {s : CompiledSchema} (idx : ShapeLabelIdx)
    (se : ShapeExpr) (hg : goodMap2 s) : goodMap2 (s.replace_shape idx se) := by
  intro L i h
  obtain ⟨se0, h0⟩ := hg L i h
  by_cases hi : i = idx
  · subst hi
    refine ⟨se, ?_⟩
    have := alLookup_alModify_self (fun p => (p.1, se)) h0
    simpa using this
  · refine ⟨se0, ?_⟩
    show alLookup i (alModify idx _ s.shapes) = _
    rw [alLookup_alModify_ne _ _ hi]
    exact h0

theorem pass2_frame : ∀ (sds : List ShapeDecl) (s s' : CompiledSchema),
    collect_shape_exprs_go sds s = .ok s' →
    s'.shape_labels_map = s.shape_labels_map := by
  intro sds
  induction sds with
  | nil =>
    intro s s' h
    cases h
    rfl
  | cons sd rest ih =>
    intro s s' h
    simp only [collect_shape_exprs_go] at h
    obtain ⟨idx0, _, h2⟩ := PResult.seq_eq_ok h
    obtain ⟨se0, _, h3⟩ := PResult.seq_eq_ok h2
    exact ih (s.replace_shape idx0 se0) s' h3

theorem pass2_preserve : ∀ (sds : List ShapeDecl) (s s' : CompiledSchema),
    collect_shape_exprs_go sds s = .ok s' →
    ∀ (idx : ShapeLabelIdx) (L : ShapeLabel) (se0 : ShapeExpr),
      alLookup idx s.shapes = some (L, se0) →
      ∃ se', alLookup idx s'.shapes = some (L, se') ∧
        (se0 ≠ .empty → se' ≠ .empty) := by
  intro sds
  induction sds with
  | nil =>
    intro s s' h idx L se0 hlk
    cases h
    exact ⟨se0, hlk, fun hne => hne⟩
  | cons sd rest ih =>
    intro s s' h idx L se0 hlk
    simp only [collect_shape_exprs_go] at h
    obtain ⟨idx0, hidx0, h2⟩ := PResult.seq_eq_ok h
    obtain ⟨sec, hsec, h3⟩ := PResult.seq_eq_ok h2
    have hsecne : sec ≠ .empty :=
      compile_shape_expr_ne_empty (by simpa [compile_shape_decl] using hsec)
    by_cases hi : idx = idx0
    · subst hi
      have hmid : alLookup idx (s.replace_shape idx sec).shapes =
          some (L, sec) := by
        have := alLookup_alModify_self (fun p => (p.1, sec)) hlk
        simpa using this
      obtain ⟨se', hse', himp⟩ := ih _ _ h3 idx L sec hmid
      exact ⟨se', hse', fun _ => himp hsecne⟩
    · have hmid : alLookup idx (s.replace_shape idx0 sec).shapes =
          some (L, se0) := by
        show alLookup idx (alModify idx0 _ s.shapes) = _
        rw [alLookup_alModify_ne _ _ hi]
        exact hlk
      exact ih _ _ h3 idx L se0 hmid

theorem pass2_main : ∀ (sds : List ShapeDecl) (s s' : CompiledSchema),
    collect_shape_exprs_go sds s = .ok s' → goodMap2 s →
    ∀ sd ∈ sds, ∀ idx : ShapeLabelIdx,
      alLookup (ShapeLabel.iri (IriS.new sd.id)) s.shape_labels_map = some idx →
      ∃ se', alLookup idx s'.shapes =
          some (ShapeLabel.iri (IriS.new sd.id), se') ∧ se' ≠ .empty := by
  intro sds
  induction sds with
  | nil =>
    intro s s' _ _ sd hmem
    simp at hmem
  | cons hd rest ih =>
    intro s s' h hg sd hmem idx hlk
    simp only [collect_shape_exprs_go] at h
    obtain ⟨idx0, hidx0, h2⟩ := PResult.seq_eq_ok h
    obtain ⟨sec, hsec, h3⟩ := PResult.seq_eq_ok h2
    have hsecne : sec ≠ .empty :=
      compile_shape_expr_ne_empty (by simpa [compile_shape_decl] using hsec)
    rcases List.mem_cons.mp hmem with heq | hmem'
    · subst heq
      have hlk0 := get_shape_label_idx_of_id_ok hidx0
      rw [hlk] at hlk0
      cases hlk0
      obtain ⟨se0, hse0⟩ := hg _ idx hlk
      have hmid : alLookup idx (s.replace_shape idx sec).shapes =
          some (ShapeLabel.iri (IriS.new sd.id), sec) := by
        have := alLookup_alModify_self (fun p => (p.1, sec)) hse0
        simpa using this
      obtain ⟨se', hse', himp⟩ := pass2_preserve rest _ _ h3 idx _ sec hmid
      exact ⟨se', hse', himp hsecne⟩
    · exact ih _ _ h3 (goodMap2_replace idx0 sec hg) sd hmem' idx hlk

/-- C1: for every schema AST whose compilation from a fresh schema
succeeds, every shape label declared in the AST is registered (pass 1)
and its Empty placeholder is replaced by the lowered body (pass 2), so
that afterwards find_label on that label returns Some pair of an index
and a shape expression, which is no longer the placeholder. -/
theorem compile_registers_all_labels :
    ∀ (sj : SchemaJson) (pm : Option PrefixMap) (s' : CompiledSchema),
      compile sj (CompiledSchema.new.set_prefixmap pm) = .ok s' →
      ∀ sd ∈ sj.shapes.getD [], ∃ idx se,
        s'.find_label (ShapeLabel.iri (IriS.new sd.id)) = some (idx, se) ∧
        se ≠ ShapeExpr.empty := by
  intro sj pm s' h sd hmem
  simp only [compile] at h
  obtain ⟨s1, h1, h2⟩ := PResult.seq_eq_ok h
  obtain ⟨s2, h2, h3⟩ := PResult.seq_eq_ok h2
  rw [PResult.pure_eq] at h3
  cases h3
  obtain ⟨shapes⟩ := sj
  cases shapes with
  | none =>
    simp at hmem
  | some sds =>
    simp only [Option.getD] at hmem
    simp only [collect_shape_labels] at h1
    simp only [collect_shape_exprs] at h2
    have hg0 : goodMap (CompiledSchema.new.set_prefixmap pm) := by
      intro L idx hlk
      simp [CompiledSchema.new, CompiledSchema.set_prefixmap, alLookup] at hlk
    have hg1 : goodMap s1 := pass1_good sds _ _ h1 hg0
    have hdecl := pass1_declared sds _ _ h1 sd hmem
    obtain ⟨idx, hlk⟩ := Option.isSome_iff_exists.mp hdecl
    have hg2 : goodMap2 s1 := fun L i hl => (hg1 L i hl).1
    obtain ⟨se', hse', hne⟩ := pass2_main sds _ _ h2 hg2 sd hmem idx hlk
    refine ⟨idx, se', ?_, hne⟩
    unfold CompiledSchema.find_label CompiledSchema.find_shape_label_idx
    rw [pass2_frame sds _ _ h2, hlk]
    simp [hse']

/-- Witness for compile_registers_all_labels: compiling the concrete
one-declaration schema sjW from a fresh schema succeeds with result s1W,
and the declared label is found with a non-placeholder expression. -/
theorem compile_registers_all_labels_witness :
    compile sjW (CompiledSchema.new.set_prefixmap none) = .ok s1W ∧
    (∃ idx se,
      s1W.find_label (ShapeLabel.iri (IriS.new sdW.id)) = some (idx, se) ∧
      se ≠ ShapeExpr.empty) :=
  ⟨rfl,
   compile_registers_all_labels sjW none s1W rfl sdW
     (List.mem_singleton.mpr rfl)⟩
